import Mathlib

/-!
Shallow embedding of the slack_translator_bot sources (src/app.js,
src/translator.js, src/utils.js with its two concatenated
channelPreferences revisions).  The external Gemini generation call is
modelled as an oracle `gen : String → Except String String` mapping a
prompt to either a response text or a thrown error message; the Slack
transport `postMessage` is likewise an oracle.  JavaScript objects used
as insertion-ordered maps are modelled as association lists.
-/

set_option autoImplicit false

namespace SlackTranslatorBot

/-! ### Character-level string helpers

JavaScript `String.prototype.includes` and single-occurrence
`String.prototype.replace` with a string pattern, modelled on `List Char`.
-/

/-- Does the character list start with the pattern? -/
def charsStartWith : List Char → List Char → Bool
  | _, [] => true
  | [], _ :: _ => false
  | c :: cs, p :: ps => c == p && charsStartWith cs ps

/-- Does the character list contain the pattern as a contiguous sublist?
Mirrors JavaScript `includes`. -/
def charsContains (pat : List Char) : List Char → Bool
  | [] => charsStartWith [] pat
  | c :: cs => charsStartWith (c :: cs) pat || charsContains pat cs

/-- Replace the first occurrence of `pat` by `repl`.  Mirrors JavaScript
`replace` with a string pattern, which replaces only the first match. -/
def charsReplaceFirst (pat repl : List Char) : List Char → List Char
  | [] => if pat == [] then repl else []
  | c :: cs =>
    if charsStartWith (c :: cs) pat then repl ++ (c :: cs).drop pat.length
    else c :: charsReplaceFirst pat repl cs

/-- JavaScript `s.includes(pat)`. -/
def containsSubstr (s pat : String) : Bool :=
  charsContains pat.data s.data

/-- JavaScript `s.replace(pat, repl)` (first occurrence only). -/
def replaceFirst (s pat repl : String) : String :=
  ⟨charsReplaceFirst pat.data repl.data s.data⟩

/-- Drop leading and trailing whitespace from a character list. -/
def charsTrim (cs : List Char) : List Char :=
  ((cs.dropWhile Char.isWhitespace).reverse.dropWhile Char.isWhitespace).reverse

/-- JavaScript `s.trim()`. -/
def jsTrim (s : String) : String :=
  ⟨charsTrim s.data⟩

/-- JavaScript `s.toLowerCase()` (ASCII letters suffice here). -/
def jsToLower (s : String) : String :=
  ⟨s.data.map Char.toLower⟩

/-- Split a character list at every occurrence of the separator. -/
def splitOnChar (sep : Char) : List Char → List (List Char)
  | [] => [[]]
  | c :: cs =>
    let rest := splitOnChar sep cs
    if c == sep then [] :: rest
    else
      match rest with
      | [] => [[c]]
      | h :: t => (c :: h) :: t

/-- JavaScript `s.split(',')`. -/
def jsSplitComma (s : String) : List String :=
  (splitOnChar ',' s.data).map (fun cs => (⟨cs⟩ : String))

/-! ### utils.js -/

/-- `parseCommaSeparatedList` from utils.js: split on commas, trim each
item, drop falsy (empty) items; a missing or empty input yields the
default. -/
def parseCommaSeparatedList (value : Option String) (defaultValue : List String) :
    List String :=
  match value with
  | none => defaultValue
  | some s =>
    if s = "" then defaultValue
    else ((jsSplitComma s).map jsTrim).filter (fun item => item ≠ "")

/-! ### translator.js -/

/-- The static language-name lookup table from translator.js. -/
def languageNames : List (String × String) :=
  [("en", "English"), ("es", "Spanish"), ("fr", "French"), ("de", "German"),
   ("it", "Italian"), ("ja", "Japanese"), ("ko", "Korean"), ("zh", "Chinese"),
   ("ru", "Russian"), ("pt", "Portuguese"), ("ar", "Arabic"),
   ("uk", "Ukrainian"), ("pl", "Polish")]

/-- `getLanguageName`: table lookup with fallback to the code itself. -/
def getLanguageName (langCode : String) : String :=
  match languageNames.find? (fun p => p.1 == langCode) with
  | some p => p.2
  | none => langCode

/-- The translation prompt built by `translateText`. -/
def translationPrompt (text targetLang : String) : String :=
  "Translate the following text to " ++ getLanguageName targetLang ++
  ". \n    Only return the translated text, no explanations or additional text:\n    \n    \"" ++
  text ++ "\""

/-- `translateText` from translator.js: send the translation prompt, trim
the response; on any failure of the generation call, return the sentinel
error string instead of throwing. -/
def translateText (gen : String → Except String String) (text targetLang : String) :
    String :=
  match gen (translationPrompt text targetLang) with
  | Except.ok response => jsTrim response
  | Except.error e => "[Translation error: " ++ e ++ "]"

/-- The detection prompt built by `detectLanguage`. -/
def detectionPrompt (text : String) : String :=
  "\n    Detect the language of the following text and respond with ONLY the ISO 639-1 language code (e.g., 'en' for English, 'es' for Spanish, etc.).\n    \n    Text: \"" ++
  text ++ "\"\n    \n    Language code:\n    "

/-- `detectLanguage` from translator.js: send the detection prompt,
lowercase and trim the response; substitute the default code for a code
outside the supported-language list; on failure default to English. -/
def detectLanguage (gen : String → Except String String)
    (supportedLanguages : List String) (text : String) : String :=
  match gen (detectionPrompt text) with
  | Except.ok response =>
    let languageCode := jsToLower (jsTrim response)
    if supportedLanguages.contains languageCode then languageCode else "en"
  | Except.error _ => "en"

/-- The target list actually used by `translateToAllLanguages`: the given
list, or all keys of the language table when none is given. -/
def resolvedTargets (languages : Option (List String)) : List String :=
  languages.getD (languageNames.map Prod.fst)

/-- The target languages remaining after the detected source language is
filtered out (translator.js line 117). -/
def filteredTargets (gen : String → Except String String)
    (supportedLanguages : List String) (text : String)
    (languages : Option (List String)) : List String :=
  (resolvedTargets languages).filter
    (fun lang => lang ≠ detectLanguage gen supportedLanguages text)

/-- `translateToAllLanguages` from translator.js: detect the source
language, drop it from the targets, then translate to each remaining
target in turn, collecting the results keyed by language code. -/
def translateToAllLanguages (gen : String → Except String String)
    (supportedLanguages : List String) (text : String)
    (languages : Option (List String)) : List (String × String) :=
  (filteredTargets gen supportedLanguages text languages).map
    (fun lang => (lang, translateText gen text lang))

/-! ### channelPreferences (the two revisions concatenated into utils.js)

The JavaScript `Map`s `channelPreferences` and `channelLanguages` are
modelled as association lists; `Map.set` overwrites in place or appends,
`Map.get` returns the stored value or none.
-/

/-- JavaScript `Map.get`: the value stored at the key, or none. -/
def mapGet {α : Type} : List (String × α) → String → Option α
  | [], _ => none
  | p :: rest, k => if p.1 == k then some p.2 else mapGet rest k

/-- JavaScript `Map.set`: update the value at an existing key in place,
otherwise append the new entry. -/
def mapSet {α : Type} (m : List (String × α)) (k : String) (v : α) :
    List (String × α) :=
  match m with
  | [] => [(k, v)]
  | p :: rest => if p.1 == k then (k, v) :: rest else p :: mapSet rest k v

/-- The combined in-memory store of the second channelPreferences revision
(the one whose exports match the imports of app.js). -/
structure PreferenceStore where
  channelPreferences : List (String × Bool)
  channelLanguages : List (String × List String)
  deriving Repr, DecidableEq

/-- The store at process start: both maps empty. -/
def emptyStore : PreferenceStore := ⟨[], []⟩

/-- `isTranslationEnabled` of the FIRST channelPreferences revision
(utils.js lines 94-97): `get(channelId) !== false`, i.e. default enabled. -/
def isTranslationEnabledV1 (prefs : List (String × Bool)) (channelId : String) :
    Bool :=
  mapGet prefs channelId != some false

/-- `isTranslationEnabled` of the second channelPreferences revision
(utils.js lines 156-159): `get(channelId) === true`, i.e. default
disabled. -/
def isTranslationEnabled (st : PreferenceStore) (channelId : String) : Bool :=
  mapGet st.channelPreferences channelId == some true

/-- `enableTranslation`: store true for the channel. -/
def enableTranslation (st : PreferenceStore) (channelId : String) :
    PreferenceStore :=
  { st with channelPreferences := mapSet st.channelPreferences channelId true }

/-- `disableTranslation`: store false for the channel. -/
def disableTranslation (st : PreferenceStore) (channelId : String) :
    PreferenceStore :=
  { st with channelPreferences := mapSet st.channelPreferences channelId false }

/-- `toggleTranslation`: read the current status via `isTranslationEnabled`,
store its negation, and return the new status. -/
def toggleTranslation (st : PreferenceStore) (channelId : String) :
    PreferenceStore × Bool :=
  let currentStatus := isTranslationEnabled st channelId
  ({ st with
      channelPreferences := mapSet st.channelPreferences channelId (!currentStatus) },
   !currentStatus)

/-- `setChannelLanguages`: store the language list for the channel
(no validation in the store itself). -/
def setChannelLanguages (st : PreferenceStore) (channelId : String)
    (languages : List String) : PreferenceStore :=
  { st with channelLanguages := mapSet st.channelLanguages channelId languages }

/-- `getChannelLanguages`: the stored override, or none
(`channelLanguages.get(channelId) || null`). -/
def getChannelLanguages (st : PreferenceStore) (channelId : String) :
    Option (List String) :=
  mapGet st.channelLanguages channelId

/-! ### Write operations, for reasoning about fresh channels -/

/-- One write operation on the preference store. -/
inductive StoreOp where
  | enable (channelId : String)
  | disable (channelId : String)
  | toggle (channelId : String)
  | setLangs (channelId : String) (languages : List String)
  deriving Repr, DecidableEq

/-- The channel a write operation is applied to. -/
def StoreOp.channel : StoreOp → String
  | .enable c => c
  | .disable c => c
  | .toggle c => c
  | .setLangs c _ => c

/-- Apply one write operation. -/
def applyOp (st : PreferenceStore) : StoreOp → PreferenceStore
  | .enable c => enableTranslation st c
  | .disable c => disableTranslation st c
  | .toggle c => (toggleTranslation st c).1
  | .setLangs c ls => setChannelLanguages st c ls

/-- Apply a sequence of write operations in order. -/
def applyOps (st : PreferenceStore) (ops : List StoreOp) : PreferenceStore :=
  ops.foldl applyOp st

/-! ### app.js -/

/-- `formatTranslations` from app.js: keep only entries whose language is
in the given list; a single entry is emitted bare, several entries are
emitted as labelled lines joined by a blank line. -/
def formatTranslations (translations : List (String × String))
    (languages : List String) : String :=
  let filteredTranslations :=
    translations.filter (fun p => languages.contains p.1)
  match filteredTranslations with
  | [p] => p.2
  | l =>
    String.intercalate "\n\n"
      (l.map (fun p => "*" ++ getLanguageName p.1 ++ "*: " ++ p.2))

/-- The dedup gate of the message handler (app.js lines 162-166): build
the composite key; a seen key is skipped, an unseen key is recorded and
processed. -/
def shouldProcess (processedMessages : List String) (channelId ts : String) :
    Bool × List String :=
  let messageId := channelId ++ "-" ++ ts
  if processedMessages.contains messageId then (false, processedMessages)
  else (true, messageId :: processedMessages)

/-- An inbound Slack message event, with the fields the handler reads. -/
structure MessageEvent where
  channel : String
  ts : String
  text : String
  threadTs : Option String
  botId : Option String
  user : String
  deriving Repr, DecidableEq

/-- One `chat.postMessage` invocation. -/
structure PostedMessage where
  channel : String
  text : String
  threadTs : Option String
  deriving Repr, DecidableEq

/-- The observable outcome of one run of the message handler. -/
structure HandlerResult where
  posted : List PostedMessage
  logged : List String
  processed : List String
  deriving Repr, DecidableEq

/-- The text sent to translation: the first `+t` removed, then trimmed
(app.js line 185). -/
def textToTranslate (event : MessageEvent) : String :=
  jsTrim (replaceFirst event.text "+t" "")

/-- Target-language resolution (app.js lines 190-191): the channel
override if set, else the parsed SUPPORTED_LANGUAGES with default
`["en"]`. -/
def languagesToUse (supportedLanguagesEnv : Option String)
    (st : PreferenceStore) (channel : String) : List String :=
  (getChannelLanguages st channel).getD
    (parseCommaSeparatedList supportedLanguagesEnv ["en"])

/-- The `app.event('message')` handler from app.js.  The translation step
and the outbound post are awaited promises that may reject, modelled as
`Except`-valued collaborators; the surrounding try/catch turns any
rejection into a log entry.  Order of the guards follows the source:
bot-echo guard, dedup gate, empty-text guard, eligibility check. -/
def messageHandler
    (translate : String → List String → Except String (List (String × String)))
    (postMessage : PostedMessage → Except String Unit)
    (appBotId : String) (supportedLanguagesEnv : Option String)
    (st : PreferenceStore) (processedMessages : List String)
    (event : MessageEvent) : HandlerResult :=
  if event.botId.isSome || event.user == appBotId then
    ⟨[], [], processedMessages⟩
  else
    match shouldProcess processedMessages event.channel event.ts with
    | (false, processed) => ⟨[], [], processed⟩
    | (true, processed) =>
      if jsTrim event.text == "" then ⟨[], [], processed⟩
      else if !containsSubstr event.text "+t" &&
          !isTranslationEnabled st event.channel then
        ⟨[], [], processed⟩
      else
        let languages := languagesToUse supportedLanguagesEnv st event.channel
        match translate (textToTranslate event) languages with
        | Except.error e =>
          ⟨[], ["Error processing message: " ++ e], processed⟩
        | Except.ok translations =>
          let formatted := formatTranslations translations languages
          let msg : PostedMessage := ⟨event.channel, formatted, event.threadTs⟩
          match postMessage msg with
          | Except.ok _ => ⟨[msg], [], processed⟩
          | Except.error e =>
            ⟨[msg], ["Error processing message: " ++ e], processed⟩

/-- A slash-command response: its text and its response type. -/
structure CommandResponse where
  text : String
  responseType : String
  deriving Repr, DecidableEq

/-- The `/translate-languages` command handler from app.js: parse the
comma-separated argument; an empty parse gets an ephemeral error and the
store is untouched, otherwise the parsed list is stored and confirmed. -/
def translateLanguagesCommand (st : PreferenceStore)
    (channelId commandText : String) : PreferenceStore × CommandResponse :=
  let languages := parseCommaSeparatedList (some commandText) []
  if languages.length == 0 then
    (st,
     ⟨"❌ Please specify at least one language code. Example: `/translate-languages es,fr,de`",
      "ephemeral"⟩)
  else
    let st2 := setChannelLanguages st channelId languages
    let names := String.intercalate ", " (languages.map getLanguageName)
    (st2, ⟨"✅ Channel languages set to: " ++ names, "in_channel"⟩)

/-! ### Dispatch-order model for the per-language loop

The loop in translator.js lines 121-128 awaits each `translateText` call
before starting the next.  The begin and completion of each underlying
call are recorded as trace events, so dispatch order is expressible. -/

/-- One scheduling event of the per-language fan-out. -/
inductive DispatchEvent where
  | callBegin (lang : String)
  | callSettle (lang : String)
  deriving Repr, DecidableEq

/-- Is the event the begin of a call? -/
def DispatchEvent.isBegin : DispatchEvent → Bool
  | .callBegin _ => true
  | .callSettle _ => false

/-- Is the event the settling of a call? -/
def DispatchEvent.isSettle : DispatchEvent → Bool
  | .callBegin _ => false
  | .callSettle _ => true

/-- The trace of `for (const lang of filteredLanguages) { await ... }`:
each call begins and settles before the next begins. -/
def sequentialLoopTrace : List String → List DispatchEvent
  | [] => []
  | lang :: rest =>
    DispatchEvent.callBegin lang :: DispatchEvent.callSettle lang ::
      sequentialLoopTrace rest

/-- The dispatch trace of one `translateToAllLanguages` call. -/
def translateToAllLanguagesTrace (gen : String → Except String String)
    (supportedLanguages : List String) (text : String)
    (languages : Option (List String)) : List DispatchEvent :=
  sequentialLoopTrace (filteredTargets gen supportedLanguages text languages)

/-- Concurrent fan-out: every call is dispatched before any call settles
(the trace is a block of begins followed by a block of settles). -/
def concurrentDispatch (trace : List DispatchEvent) : Bool :=
  (trace.dropWhile DispatchEvent.isBegin).all DispatchEvent.isSettle

/-- Sequential dispatch: the trace is a sequence of begin/settle pairs,
each call settling before the next is dispatched. -/
def sequentialDispatch : List DispatchEvent → Bool
  | [] => true
  | DispatchEvent.callBegin lang :: DispatchEvent.callSettle lang2 :: rest =>
    lang == lang2 && sequentialDispatch rest
  | _ => false

/-! ### Helper lemmas -/

theorem mapGet_mapSet_self {α : Type} (m : List (String × α)) (k : String) (v : α) :
    mapGet (mapSet m k v) k = some v := by
  induction m with
  | nil => simp [mapGet, mapSet]
  | cons p rest ih =>
    by_cases h : p.1 = k
    · simp [mapGet, mapSet, h]
    · simp [mapGet, mapSet, h, ih]

theorem mapGet_mapSet_ne {α : Type} (m : List (String × α)) (k k2 : String) (v : α)
    (h : k2 ≠ k) : mapGet (mapSet m k v) k2 = mapGet m k2 := by
  have hne : k ≠ k2 := fun hk => h hk.symm
  induction m with
  | nil => simp [mapGet, mapSet, hne]
  | cons p rest ih =>
    by_cases hp : p.1 = k
    · have hp2 : p.1 ≠ k2 := hp ▸ hne
      simp [mapGet, mapSet, hp, hne, hp2]
    · simp only [mapSet, if_neg, hp]
      simp [mapGet, hp, ih]

theorem map_fst_map_pair (f : String → String) (l : List String) :
    (l.map (fun x => (x, f x))).map Prod.fst = l := by
  induction l with
  | nil => rfl
  | cons a t ih => simp [ih]

theorem lookup_map_pair (f : String → String) (l : List String) (a : String)
    (h : a ∈ l) :
    (l.map (fun x => (x, f x))).lookup a = some (f a) := by
  induction l with
  | nil => cases h
  | cons x xs ih =>
    by_cases hax : a = x
    · subst hax
      simp [List.lookup]
    · have hmem : a ∈ xs := (List.mem_cons.mp h).resolve_left hax
      have hbeq : (a == x) = false := beq_eq_false_iff_ne.mpr hax
      simp [List.lookup, hbeq, ih hmem]

/-! ### Claim theorems -/

/-- Claim C5: `translateText` is a total function of the generation oracle: when
the underlying generation call fails with message `e` it returns the
sentinel string `"[Translation error: " ++ e ++ "]"` instead of throwing,
when the call succeeds it returns the trimmed response, and a failure for
one language never aborts the others: every non-source target still
receives its own `translateText` result in `translateToAllLanguages`. -/
theorem translateText_sentinel_on_failure (gen : String → Except String String)
    (text targetLang : String) :
    (∀ e, gen (translationPrompt text targetLang) = Except.error e →
      translateText gen text targetLang = "[Translation error: " ++ e ++ "]") ∧
    (∀ r, gen (translationPrompt text targetLang) = Except.ok r →
      translateText gen text targetLang = jsTrim r) ∧
    (∀ supported targets lang, lang ∈ targets →
      lang ≠ detectLanguage gen supported text →
      (lang, translateText gen text lang) ∈
        translateToAllLanguages gen supported text (some targets)) := by
  refine ⟨fun e he => ?_, fun r hr => ?_, fun supported targets lang hmem hne => ?_⟩
  · simp [translateText, he]
  · simp [translateText, hr]
  · refine List.mem_map_of_mem _ ?_
    simp [filteredTargets, resolvedTargets, List.mem_filter, hmem, hne]

/-- Witness for C5 at a concrete failing oracle. -/
theorem translateText_sentinel_on_failure_witness :
    translateText (fun _ => Except.error "boom") "Hi" "es" =
      "[Translation error: boom]" :=
  (translateText_sentinel_on_failure (fun _ => Except.error "boom") "Hi" "es").1
    "boom" rfl

/-- Claim C7: the dedup gate returns true on the first sight of a composite
`(channelId, timestamp)` key and inserts the key; it returns false on a
key already in the tracked set; and an immediate repeat of the same key
through the gate returns false. -/
theorem shouldProcess_dedup (s : List String) (channelId ts : String) :
    (s.contains (channelId ++ "-" ++ ts) = false →
      shouldProcess s channelId ts = (true, (channelId ++ "-" ++ ts) :: s)) ∧
    (s.contains (channelId ++ "-" ++ ts) = true →
      shouldProcess s channelId ts = (false, s)) ∧
    (shouldProcess (shouldProcess s channelId ts).2 channelId ts).1 = false := by
  refine ⟨fun h => ?_, fun h => ?_, ?_⟩
  · have h2 : channelId ++ "-" ++ ts ∉ s := by simpa using h
    simp [shouldProcess, h2]
  · have h2 : channelId ++ "-" ++ ts ∈ s := by simpa using h
    simp [shouldProcess, h2]
  · by_cases h2 : channelId ++ "-" ++ ts ∈ s
    · simp [shouldProcess, h2]
    · simp [shouldProcess, h2]

/-- Witness for C7: fresh key accepted once, then refused. -/
theorem shouldProcess_dedup_witness :
    shouldProcess [] "C1" "100.001" = (true, ["C1-100.001"]) ∧
    (shouldProcess (shouldProcess [] "C1" "100.001").2 "C1" "100.001").1 = false :=
  ⟨(shouldProcess_dedup [] "C1" "100.001").1 (by decide),
   (shouldProcess_dedup [] "C1" "100.001").2.2⟩

/-- Claim C9: for every starting store, `toggleTranslation` returns the negated
enabled flag, and applied twice in sequence it restores the enabled flag
of the channel to its original value (each call returning the new
value). -/
theorem toggleTranslation_twice (st : PreferenceStore) (c : String) :
    (toggleTranslation st c).2 = !isTranslationEnabled st c ∧
    isTranslationEnabled (toggleTranslation st c).1 c =
      !isTranslationEnabled st c ∧
    (toggleTranslation (toggleTranslation st c).1 c).2 =
      isTranslationEnabled st c ∧
    isTranslationEnabled (toggleTranslation (toggleTranslation st c).1 c).1 c =
      isTranslationEnabled st c := by
  have htog : ∀ st2 : PreferenceStore,
      isTranslationEnabled (toggleTranslation st2 c).1 c =
        !isTranslationEnabled st2 c := by
    intro st2
    have hprefs : (toggleTranslation st2 c).1.channelPreferences =
        mapSet st2.channelPreferences c (!isTranslationEnabled st2 c) := rfl
    show (mapGet (toggleTranslation st2 c).1.channelPreferences c == some true) = _
    rw [hprefs, mapGet_mapSet_self]
    cases isTranslationEnabled st2 c <;> rfl
  have hsnd : ∀ st2 : PreferenceStore,
      (toggleTranslation st2 c).2 = !isTranslationEnabled st2 c := fun _ => rfl
  refine ⟨rfl, htog st, ?_, ?_⟩
  · rw [hsnd, htog]
    simp
  · rw [htog, htog]
    simp

/-- Claim C4: a `/translate-languages` invocation whose argument normalizes to
the empty list is rejected with the ephemeral validation error and leaves
the store, in particular the stored languages of the channel,
unchanged. -/
theorem translateLanguagesCommand_rejects_empty (st : PreferenceStore)
    (channelId commandText : String)
    (h : parseCommaSeparatedList (some commandText) [] = []) :
    (translateLanguagesCommand st channelId commandText).1 = st ∧
    getChannelLanguages (translateLanguagesCommand st channelId commandText).1
        channelId = getChannelLanguages st channelId ∧
    (translateLanguagesCommand st channelId commandText).2 =
      ⟨"❌ Please specify at least one language code. Example: `/translate-languages es,fr,de`",
       "ephemeral"⟩ := by
  refine ⟨?_, ?_, ?_⟩ <;> simp [translateLanguagesCommand, h]

/-- Witness for C4: a whitespace-and-commas argument is rejected and the
stored languages are unchanged. -/
theorem translateLanguagesCommand_rejects_empty_witness :
    (translateLanguagesCommand emptyStore "C1" " , ,  ").1 = emptyStore ∧
    getChannelLanguages (translateLanguagesCommand emptyStore "C1" " , ,  ").1
        "C1" = getChannelLanguages emptyStore "C1" ∧
    (translateLanguagesCommand emptyStore "C1" " , ,  ").2 =
      ⟨"❌ Please specify at least one language code. Example: `/translate-languages es,fr,de`",
       "ephemeral"⟩ :=
  translateLanguagesCommand_rejects_empty emptyStore "C1" " , ,  " (by decide)

theorem isTranslationEnabled_applyOp_other (st : PreferenceStore) (op : StoreOp)
    (c : String) (h : op.channel ≠ c) :
    isTranslationEnabled (applyOp st op) c = isTranslationEnabled st c := by
  cases op with
  | enable c2 =>
    have h2 : c ≠ c2 := Ne.symm h
    show (mapGet (mapSet st.channelPreferences c2 true) c == some true) = _
    rw [mapGet_mapSet_ne st.channelPreferences c2 c true h2]
    rfl
  | disable c2 =>
    have h2 : c ≠ c2 := Ne.symm h
    show (mapGet (mapSet st.channelPreferences c2 false) c == some true) = _
    rw [mapGet_mapSet_ne st.channelPreferences c2 c false h2]
    rfl
  | toggle c2 =>
    have h2 : c ≠ c2 := Ne.symm h
    show (mapGet (mapSet st.channelPreferences c2
        (!isTranslationEnabled st c2)) c == some true) = _
    rw [mapGet_mapSet_ne st.channelPreferences c2 c _ h2]
    rfl
  | setLangs c2 ls => rfl

theorem isTranslationEnabled_applyOps_untouched (ops : List StoreOp)
    (st : PreferenceStore) (c : String) (h : ∀ op ∈ ops, op.channel ≠ c) :
    isTranslationEnabled (applyOps st ops) c = isTranslationEnabled st c := by
  induction ops generalizing st with
  | nil => rfl
  | cons op rest ih =>
    have hstep : applyOps st (op :: rest) = applyOps (applyOp st op) rest := rfl
    rw [hstep, ih (applyOp st op) (fun o ho => h o (List.mem_cons_of_mem _ ho)),
      isTranslationEnabled_applyOp_other st op c (h op (List.mem_cons_self _ _))]

/-- Claim C2: a channel no write operation (enable, disable, toggle,
set-languages) has ever been applied to reports translation as disabled:
starting from the empty store, any sequence of writes that never touches
the channel leaves `isTranslationEnabled` false for it.  This is the
second channelPreferences revision, the one whose exports app.js
imports. -/
theorem isTranslationEnabled_fresh_channel_false (ops : List StoreOp) (c : String)
    (h : ∀ op ∈ ops, op.channel ≠ c) :
    isTranslationEnabled (applyOps emptyStore ops) c = false :=
  (isTranslationEnabled_applyOps_untouched ops emptyStore c h).trans rfl

/-- Witness for C2: after enabling a different channel, a fresh channel
is still disabled. -/
theorem isTranslationEnabled_fresh_channel_false_witness :
    isTranslationEnabled (applyOps emptyStore
      [StoreOp.enable "C2", StoreOp.toggle "C3"]) "C1" = false :=
  isTranslationEnabled_fresh_channel_false [StoreOp.enable "C2", StoreOp.toggle "C3"]
    "C1" (by decide)

/-- Claim C1: `translateToAllLanguages` first removes the detected source
language from the target list; the keys of its result are exactly the
remaining targets; and a target whose underlying generation call fails
is mapped to the sentinel error string rather than aborting the call. -/
theorem translateToAllLanguages_keys_and_failure_isolation
    (gen : String → Except String String) (supported : List String)
    (text : String) (targets : List String) (_hnd : targets.Nodup) :
    ((translateToAllLanguages gen supported text (some targets)).map Prod.fst =
      targets.filter (fun lang => lang ≠ detectLanguage gen supported text)) ∧
    (∀ lang e, lang ∈ targets → lang ≠ detectLanguage gen supported text →
      gen (translationPrompt text lang) = Except.error e →
      (translateToAllLanguages gen supported text (some targets)).lookup lang =
        some ("[Translation error: " ++ e ++ "]")) := by
  constructor
  · exact map_fst_map_pair (fun l => translateText gen text l)
      (filteredTargets gen supported text (some targets))
  · intro lang e hmem hne hgen
    have hfil : lang ∈ filteredTargets gen supported text (some targets) := by
      simp [filteredTargets, resolvedTargets, List.mem_filter, hmem, hne]
    have hsent : translateText gen text lang = "[Translation error: " ++ e ++ "]" := by
      simp [translateText, hgen]
    have h1 := lookup_map_pair (fun l => translateText gen text l)
      (filteredTargets gen supported text (some targets)) lang hfil
    exact h1.trans (by simp only []; rw [hsent])

/-- Witness for C1, the example of the spec: "Bonjour" with detected
source "fr" and targets ["en", "fr"]; the result is keyed by "en" alone,
and the failing call for "en" yields the sentinel.  The oracle answers
the detection prompt (which starts with a newline) with "fr" and fails
every translation prompt (which starts with a capital T). -/
theorem translateToAllLanguages_keys_and_failure_isolation_witness :
    ((translateToAllLanguages
        (fun p => if p.data.head? = some 'T' then Except.error "api down"
          else Except.ok "fr")
        ["en", "fr"] "Bonjour" (some ["en", "fr"])).map Prod.fst =
      ["en", "fr"].filter (fun lang => lang ≠ detectLanguage
        (fun p => if p.data.head? = some 'T' then Except.error "api down"
          else Except.ok "fr") ["en", "fr"] "Bonjour")) ∧
    (translateToAllLanguages
        (fun p => if p.data.head? = some 'T' then Except.error "api down"
          else Except.ok "fr")
        ["en", "fr"] "Bonjour" (some ["en", "fr"])).lookup "en" =
      some ("[Translation error: " ++ "api down" ++ "]") :=
  ⟨(translateToAllLanguages_keys_and_failure_isolation
      (fun p => if p.data.head? = some 'T' then Except.error "api down"
        else Except.ok "fr") ["en", "fr"] "Bonjour" ["en", "fr"]
      (by decide)).1,
   (translateToAllLanguages_keys_and_failure_isolation
      (fun p => if p.data.head? = some 'T' then Except.error "api down"
        else Except.ok "fr") ["en", "fr"] "Bonjour" ["en", "fr"]
      (by decide)).2 "en" "api down" (by decide) (by decide) (by rfl)⟩

/-- Claim C3: `formatTranslations` emits a single-entry result as the bare
translated text with no label (in particular at the example of the spec),
and a multi-entry result as starred display-name labels joined by a blank
line, following the order of the entries, which is the order of the
target-language list for results produced by `translateToAllLanguages`. -/
theorem formatTranslations_single_and_multi :
    formatTranslations [("es", "Hola")] ["es"] = "Hola" ∧
    formatTranslations [("es", "Hola"), ("fr", "Bonjour")] ["es", "fr"] =
      "*Spanish*: Hola\n\n*French*: Bonjour" ∧
    (∀ lang text, formatTranslations [(lang, text)] [lang] = text) ∧
    (∀ (translations : List (String × String)) (languages : List String),
      (∀ p ∈ translations, p.1 ∈ languages) → translations.length ≠ 1 →
      formatTranslations translations languages =
        String.intercalate "\n\n"
          (translations.map
            (fun p => "*" ++ getLanguageName p.1 ++ "*: " ++ p.2))) := by
  refine ⟨by rfl, by rfl, fun lang text => ?_, fun ts ls hall hlen => ?_⟩
  · simp [formatTranslations]
  · have hfil : ts.filter (fun p => ls.contains p.1) = ts :=
      List.filter_eq_self.mpr (fun p hp => by simpa using hall p hp)
    simp only [formatTranslations]
    rw [hfil]
    rcases ts with _ | ⟨p, _ | ⟨q, rest⟩⟩
    · rfl
    · exact absurd rfl hlen
    · rfl

/-- Witness for C3 applying the general multi-entry case at the example
of the spec. -/
theorem formatTranslations_single_and_multi_witness :
    formatTranslations [("es", "Hola"), ("fr", "Bonjour")] ["es", "fr"] =
      String.intercalate "\n\n"
        ([("es", "Hola"), ("fr", "Bonjour")].map
          (fun p => "*" ++ getLanguageName p.1 ++ "*: " ++ p.2)) :=
  formatTranslations_single_and_multi.2.2.2 [("es", "Hola"), ("fr", "Bonjour")]
    ["es", "fr"] (by decide) (by decide)

/-- Counterexample to C8: at a concrete input with two remaining targets,
the dispatch trace of the per-language loop is not a concurrent fan-out:
the first call settles before the second is dispatched. -/
theorem translateToAllLanguages_dispatch_not_concurrent :
    concurrentDispatch (translateToAllLanguagesTrace
      (fun _ => Except.error "network down") ["en", "es", "fr"] "Bonjour"
      (some ["es", "fr"])) = false := by rfl

/-- Claim C8, amended: within one `translateToAllLanguages` call the
`translateText` calls for the remaining targets are dispatched
sequentially, each awaited before the next begins, and the call returns
only after every remaining target has settled, every one contributing an
entry to the result (no partial early return). -/
theorem translateToAllLanguages_dispatch_sequential
    (gen : String → Except String String) (supported : List String)
    (text : String) (languages : Option (List String)) :
    sequentialDispatch
      (translateToAllLanguagesTrace gen supported text languages) = true ∧
    (translateToAllLanguages gen supported text languages).map Prod.fst =
      filteredTargets gen supported text languages := by
  constructor
  · show sequentialDispatch
      (sequentialLoopTrace (filteredTargets gen supported text languages)) = true
    generalize filteredTargets gen supported text languages = l
    induction l with
    | nil => rfl
    | cons a t ih => simp [sequentialLoopTrace, sequentialDispatch, ih]
  · exact map_fst_map_pair (fun l => translateText gen text l)
      (filteredTargets gen supported text languages)

/-- Claim C6: when the awaited translation step of the message event handler
fails, the surrounding try/catch swallows the failure: the handler
returns normally with the error logged, no message is posted, and the
dedup entry stays recorded. -/
theorem messageHandler_swallows_translation_failure
    (translate : String → List String → Except String (List (String × String)))
    (postMessage : PostedMessage → Except String Unit)
    (appBotId : String) (supportedLanguagesEnv : Option String)
    (st : PreferenceStore) (processedMessages : List String)
    (event : MessageEvent) (e : String)
    (hbot : event.botId = none)
    (huser : (event.user == appBotId) = false)
    (hfresh : (event.channel ++ "-" ++ event.ts) ∉ processedMessages)
    (htext : (jsTrim event.text == "") = false)
    (helig : (!containsSubstr event.text "+t" &&
      !isTranslationEnabled st event.channel) = false)
    (hfail : translate (textToTranslate event)
      (languagesToUse supportedLanguagesEnv st event.channel) = Except.error e) :
    messageHandler translate postMessage appBotId supportedLanguagesEnv st
      processedMessages event =
      ⟨[], ["Error processing message: " ++ e],
       (event.channel ++ "-" ++ event.ts) :: processedMessages⟩ := by
  simp [messageHandler, shouldProcess, hbot, huser, hfresh, htext, helig, hfail]

/-- Witness for C6: a failing translation collaborator is logged and
swallowed, nothing is posted. -/
theorem messageHandler_swallows_translation_failure_witness :
    messageHandler (fun _ _ => Except.error "api down")
      (fun _ => Except.ok ()) "B1" (some "en") emptyStore []
      ⟨"C1", "100.001", "+t Hello", none, none, "U1"⟩ =
      ⟨[], ["Error processing message: " ++ "api down"], ["C1-100.001"]⟩ :=
  messageHandler_swallows_translation_failure (fun _ _ => Except.error "api down")
    (fun _ => Except.ok ()) "B1" (some "en") emptyStore []
    ⟨"C1", "100.001", "+t Hello", none, none, "U1"⟩ "api down"
    rfl (by decide) (by decide) (by decide) (by decide) rfl

/-- Claim C10: when every resolved target language equals the detected source
language, `translateToAllLanguages` returns the empty mapping,
`formatTranslations` of it is the empty string, and the message handler
still performs a `postMessage` call whose text is that empty string. -/
theorem messageHandler_posts_empty_translation
    (gen : String → Except String String) (supportedLanguagesEnv : Option String)
    (appBotId : String) (st : PreferenceStore) (processedMessages : List String)
    (event : MessageEvent)
    (hbot : event.botId = none)
    (huser : (event.user == appBotId) = false)
    (hfresh : (event.channel ++ "-" ++ event.ts) ∉ processedMessages)
    (htext : (jsTrim event.text == "") = false)
    (helig : (!containsSubstr event.text "+t" &&
      !isTranslationEnabled st event.channel) = false)
    (hsrc : ∀ lang ∈ languagesToUse supportedLanguagesEnv st event.channel,
      lang = detectLanguage gen
        (parseCommaSeparatedList supportedLanguagesEnv ["en"])
        (textToTranslate event)) :
    translateToAllLanguages gen
      (parseCommaSeparatedList supportedLanguagesEnv ["en"])
      (textToTranslate event)
      (some (languagesToUse supportedLanguagesEnv st event.channel)) = [] ∧
    formatTranslations []
      (languagesToUse supportedLanguagesEnv st event.channel) = "" ∧
    (messageHandler
      (fun t ls => Except.ok (translateToAllLanguages gen
        (parseCommaSeparatedList supportedLanguagesEnv ["en"]) t (some ls)))
      (fun _ => Except.ok ()) appBotId supportedLanguagesEnv st
      processedMessages event).posted =
      [⟨event.channel, "", event.threadTs⟩] := by
  have hfil : filteredTargets gen
      (parseCommaSeparatedList supportedLanguagesEnv ["en"])
      (textToTranslate event)
      (some (languagesToUse supportedLanguagesEnv st event.channel)) = [] := by
    apply List.filter_eq_nil_iff.mpr
    intro a ha
    simp only [resolvedTargets, Option.getD_some] at ha
    simp [hsrc a ha]
  have hempty : translateToAllLanguages gen
      (parseCommaSeparatedList supportedLanguagesEnv ["en"])
      (textToTranslate event)
      (some (languagesToUse supportedLanguagesEnv st event.channel)) = [] := by
    show (filteredTargets gen
      (parseCommaSeparatedList supportedLanguagesEnv ["en"])
      (textToTranslate event)
      (some (languagesToUse supportedLanguagesEnv st event.channel))).map _ = []
    rw [hfil]
    rfl
  refine ⟨hempty, rfl, ?_⟩
  simp [messageHandler, shouldProcess, hbot, huser, hfresh, htext, helig, hempty]
  rfl

/-- Witness for C10: with a single target equal to the detected source,
an outbound post with empty text still occurs. -/
theorem messageHandler_posts_empty_translation_witness :
    (messageHandler
      (fun t ls => Except.ok (translateToAllLanguages
        (fun _ => Except.error "down")
        (parseCommaSeparatedList (some "en") ["en"]) t (some ls)))
      (fun _ => Except.ok ()) "B1" (some "en") emptyStore []
      ⟨"C1", "100.001", "+t Hello", none, none, "U1"⟩).posted =
      [⟨"C1", "", none⟩] :=
  (messageHandler_posts_empty_translation (fun _ => Except.error "down")
    (some "en") "B1" emptyStore []
    ⟨"C1", "100.001", "+t Hello", none, none, "U1"⟩
    rfl (by decide) (by decide) (by decide) (by decide) (by decide)).2.2

end SlackTranslatorBot
